import Mathlib

/-!
# Verification of the Cleancsv text-cleaning pipeline

Shallow embedding of the core of `src/app.py` (the Streamlit CSV HTML
cleaner): the per-value text transforms (`decode_html_entities`,
`remove_html_tags`, `normalize_whitespace_func`, `remove_urls_func`,
`remove_email_func`), their composition `clean_text_comprehensive`, the
statistics computation `get_cleaning_stats`, and the column-processing
loop (pandas `df[new_column_name] = cleaned_series`).

Cell values are `Option String` (`none` models a pandas missing value,
`pd.isna`).  Machine text is `List Char` under the hood; the Python
standard-library pieces the source calls (`html.unescape`, the `re`
module's concrete patterns, `str.strip`) are embedded by faithful
executable models, documented at each definition.
-/

namespace Cleancsv

/-- Models the character class of Python's regex `\s` (and `str.strip`
whitespace) for the characters that can occur here: ASCII whitespace plus
NBSP.  (Python also treats some rarer Unicode spaces as `\s`; none of the
verified properties depend on those.) -/
def isWS (c : Char) : Bool :=
  c == ' ' || c == '\t' || c == '\n' || c == '\r' ||
  c == Char.ofNat 11 || c == Char.ofNat 12 || c == Char.ofNat 160

/-- One left-to-right pass implementing `re.sub(r'\s+', ' ', text)`:
every maximal run of whitespace becomes a single ASCII space.  The flag
records whether we are currently inside a whitespace run (whose single
replacement space has already been emitted). -/
def collapseAux : Bool → List Char → List Char
  | _, [] => []
  | inRun, c :: cs =>
    if isWS c then
      if inRun then collapseAux true cs
      else ' ' :: collapseAux true cs
    else c :: collapseAux false cs

/-- Python `str.strip()`: drop whitespace from both ends. -/
def pyStrip (l : List Char) : List Char :=
  ((l.dropWhile isWS).reverse.dropWhile isWS).reverse

/-- `normalize_whitespace_func` (src/app.py lines 102-113): guard for
missing/empty, then `re.sub(r'\s+', ' ', text)` followed by `.strip()`. -/
def normalize_whitespace_func (text : Option String) : String :=
  match text with
  | none => ""
  | some s => if s = "" then "" else String.mk (pyStrip (collapseAux false s.toList))

/-- The named-entity table used by the `html.unescape` model: the subset of
the HTML5 entity table relevant to this development (all other names pass
through unchanged, as unrecognized references do in Python). -/
def entityTable : List (List Char × Char) :=
  [("amp".toList, '&'), ("lt".toList, '<'), ("gt".toList, '>'),
   ("quot".toList, '"'), ("apos".toList, '\''), ("nbsp".toList, Char.ofNat 160)]

def digitsToNat (ds : List Char) : Nat :=
  ds.foldl (fun a c => a * 10 + (c.toNat - 48)) 0

/-- Try to read one character reference at a position just after `&`.
Returns the decoded character and the remaining input.  Models Python
`html.unescape`'s handling of `&name;` (for names in `entityTable`) and
decimal `&#123;`-style references; the model requires the terminating
semicolon (all references exercised here have one). -/
def tryEntity (l : List Char) : Option (Char × List Char) :=
  match l with
  | '#' :: rest =>
    let ds := rest.takeWhile Char.isDigit
    if ds.isEmpty then none
    else
      match rest.drop ds.length with
      | ';' :: rest' => some (Char.ofNat (digitsToNat ds), rest')
      | _ => none
  | _ =>
    let name := l.takeWhile Char.isAlpha
    if name.isEmpty then none
    else
      match l.drop name.length with
      | ';' :: rest' =>
        match entityTable.lookup name with
        | some c => some (c, rest')
        | none => none
      | _ => none

/-- Single left-to-right decoding pass of `html.unescape`, fuelled (the
continuation after a decoded reference is a non-structural suffix).  Fuel
`l.length` always suffices: each step consumes at least one character. -/
def unescapeAux : Nat → List Char → List Char
  | 0, l => l
  | _ + 1, [] => []
  | fuel + 1, c :: rest =>
    if c = '&' then
      match tryEntity rest with
      | some (ch, rest') => ch :: unescapeAux fuel rest'
      | none => c :: unescapeAux fuel rest
    else c :: unescapeAux fuel rest

def unescapeList (l : List Char) : List Char :=
  unescapeAux l.length l

/-- `decode_html_entities` (src/app.py lines 76-81): guard for
missing/empty, then `html.unescape(str(text))`. -/
def decode_html_entities (text : Option String) : String :=
  match text with
  | none => ""
  | some s => if s = "" then "" else String.mk (unescapeList s.toList)

/-- Case-insensitive "starts with" on character lists (pattern matching
under `re.IGNORECASE`). -/
def ciStarts : List Char → List Char → Bool
  | [], _ => true
  | _ :: _, [] => false
  | p :: ps, c :: cs => (p.toLower == c.toLower) && ciStarts ps cs

/-- Find the earliest (non-greedy) case-insensitive occurrence of `close`;
return the text before it and the remainder after it. -/
def findCloseCI (close : List Char) : List Char → Option (List Char × List Char)
  | [] => none
  | c :: cs =>
    if ciStarts close (c :: cs) then some ([], (c :: cs).drop close.length)
    else
      match findCloseCI close cs with
      | some (inner, rest) => some (c :: inner, rest)
      | none => none

/-- `re.sub('<tag>(.*?)</tag>', 'M\1M', text, flags=IGNORECASE|DOTALL)`:
replace each non-greedy, case-insensitive `openT ... closeT` span by the
inner text wrapped in `marker`, continuing after each replacement.  Fuelled
(fuel `l.length` suffices: each step consumes at least one character). -/
def subPairAux (openT closeT marker : List Char) : Nat → List Char → List Char
  | 0, l => l
  | _ + 1, [] => []
  | fuel + 1, c :: cs =>
    if ciStarts openT (c :: cs) then
      match findCloseCI closeT ((c :: cs).drop openT.length) with
      | some (inner, rest) =>
        marker ++ inner ++ marker ++ subPairAux openT closeT marker fuel rest
      | none => c :: subPairAux openT closeT marker fuel cs
    else c :: subPairAux openT closeT marker fuel cs

def subPair (openT closeT marker : List Char) (l : List Char) : List Char :=
  subPairAux openT closeT marker l.length l

/-- Skip to just past the first `'>'`, if any. -/
def findGt : List Char → Option (List Char)
  | [] => none
  | c :: cs => if c = '>' then some cs else findGt cs

/-- `re.sub(r'<[^>]*>', '', text)`: each `<` that is followed by some later
`>` is removed together with everything up to that first `>`; a `<` with no
later `>` stays.  Fuelled (fuel `l.length` suffices). -/
def removeTagsAux : Nat → List Char → List Char
  | 0, l => l
  | _ + 1, [] => []
  | fuel + 1, c :: cs =>
    if c = '<' then
      match findGt cs with
      | some rest => removeTagsAux fuel rest
      | none => c :: removeTagsAux fuel cs
    else c :: removeTagsAux fuel cs

def removeTagsList (l : List Char) : List Char :=
  removeTagsAux l.length l

/-- The formatting-preservation rewrite of `remove_html_tags` (src/app.py
lines 91-96): `<strong>`, `<b>`, `<em>`, `<i>` spans, in that order, become
markdown markers. -/
def formatRewrite (l : List Char) : List Char :=
  subPair "<i>".toList "</i>".toList "*".toList
    (subPair "<em>".toList "</em>".toList "*".toList
      (subPair "<b>".toList "</b>".toList "**".toList
        (subPair "<strong>".toList "</strong>".toList "**".toList l)))

/-- `remove_html_tags` (src/app.py lines 83-100): guard for missing/empty;
when `preserve_formatting` first rewrite bold/italic spans to markdown,
then in every case strip all remaining tags with `re.sub(r'<[^>]*>', '')`. -/
def remove_html_tags (text : Option String) (preserve_formatting : Bool) : String :=
  match text with
  | none => ""
  | some s =>
    if s = "" then ""
    else
      let l1 := if preserve_formatting then formatRewrite s.toList else s.toList
      String.mk (removeTagsList l1)

/-- Characters allowed in the URL body: the complement of the class
`[^\s<>"{}|\\^`\[\]]` in the pattern of `remove_urls_func` (the two brace
characters and the backtick are written by code point). -/
def urlChar (c : Char) : Bool :=
  !(isWS c || c == '<' || c == '>' || c == '"' || c == Char.ofNat 123 ||
    c == Char.ofNat 125 || c == '|' || c == '\\' || c == '^' ||
    c == Char.ofNat 96 || c == '[' || c == ']')

/-- Try to match `https?://[^\s<>"{}|\\^`\[\]]*` at this position; return
the remainder after the (greedy) match. -/
def matchUrl (l : List Char) : Option (List Char) :=
  if ("https://".toList).isPrefixOf l then some ((l.drop 8).dropWhile urlChar)
  else if ("http://".toList).isPrefixOf l then some ((l.drop 7).dropWhile urlChar)
  else none

/-- Delete every URL match, scanning left to right, continuing after each
match (the semantics of `re.sub(pat, '', text)`).  Fuelled; fuel `l.length`
suffices since each step consumes at least one character. -/
def removeUrlsAux : Nat → List Char → List Char
  | 0, l => l
  | _ + 1, [] => []
  | fuel + 1, c :: cs =>
    match matchUrl (c :: cs) with
    | some rest => removeUrlsAux fuel rest
    | none => c :: removeUrlsAux fuel cs

/-- `remove_urls_func` (src/app.py lines 115-124): guard, then
`re.sub(r'https?://[^\s<>"{}|\\^`\[\]]*', '', text)`. -/
def remove_urls_func (text : Option String) : String :=
  match text with
  | none => ""
  | some s => if s = "" then "" else String.mk (removeUrlsAux s.toList.length s.toList)

def isWordChar (c : Char) : Bool := c.isAlpha || c.isDigit || c == '_'

def localChar (c : Char) : Bool :=
  c.isAlpha || c.isDigit || c == '.' || c == '_' || c == '%' || c == '+' || c == '-'

def domainChar (c : Char) : Bool := c.isAlpha || c.isDigit || c == '.' || c == '-'

/-- Search the backtracking split point inside the greedy domain run `d`
(a suffix of `rest2`): the largest index `k` holding a `'.'` that is
followed by at least two letters and then a word boundary.  Returns the
remainder of `rest2` after the whole match.  `j` counts down candidate
positions (`j = k + 1`). -/
def emailSplit (rest2 : List Char) : Nat → Option (List Char)
  | 0 => none
  | j + 1 =>
    if j = 0 then none
    else
      match rest2.drop j with
      | '.' :: afterDot =>
        let tld := afterDot.takeWhile Char.isAlpha
        if 2 ≤ tld.length &&
            ((afterDot.drop tld.length).head?.all fun c => !isWordChar c) then
          some (afterDot.drop tld.length)
        else emailSplit rest2 j
      | _ => emailSplit rest2 j

/-- Try to match the email pattern
`\b[A-Za-z0-9._%+-]+@[A-Za-z0-9.-]+\.[A-Z|a-z]{2,}\b` at this position
(`prevWord` says whether the character before this position is a word
character, for the leading `\b`).  Models the regex with leftmost-greedy
local/domain runs and the engine's backtracking over the domain `+`; the
rarely relevant `|` alternative inside the final character class is not
modelled.  Returns the remainder after the match. -/
def matchEmail (prevWord : Bool) (l : List Char) : Option (List Char) :=
  match l with
  | [] => none
  | c :: _ =>
    if isWordChar c == prevWord then none
    else
      let loc := l.takeWhile localChar
      if loc.isEmpty then none
      else
        match l.drop loc.length with
        | '@' :: rest2 =>
          let d := rest2.takeWhile domainChar
          if d.isEmpty then none else emailSplit rest2 d.length
        | _ => none

/-- Delete every email match, scanning left to right; `prevWord` tracks the
word-character status of the previous character of the original text (a
match always ends in a letter, so after a deletion it is `true`). -/
def removeEmailsAux : Nat → Bool → List Char → List Char
  | 0, _, l => l
  | _ + 1, _, [] => []
  | fuel + 1, prevWord, c :: cs =>
    match matchEmail prevWord (c :: cs) with
    | some rest => removeEmailsAux fuel true rest
    | none => c :: removeEmailsAux fuel (isWordChar c) cs

/-- `remove_email_func` (src/app.py lines 126-135): guard, then
`re.sub(r'\b[A-Za-z0-9._%+-]+@[A-Za-z0-9.-]+\.[A-Z|a-z]{2,}\b', '', text)`. -/
def remove_email_func (text : Option String) : String :=
  match text with
  | none => ""
  | some s => if s = "" then "" else String.mk (removeEmailsAux s.toList.length false s.toList)

/-- The `cleaning_options` dictionary: each field is `none` when the key is
absent, so `options.get(key, default)` is `Option.getD`. -/
structure Options where
  decode_html : Option Bool
  remove_tags : Option Bool
  preserve_formatting : Option Bool
  normalize_whitespace : Option Bool
  remove_urls : Option Bool
  remove_email : Option Bool
deriving DecidableEq

/-- The options dictionary with every key absent. -/
def emptyOptions : Options := ⟨none, none, none, none, none, none⟩

/-- `clean_text_comprehensive` (src/app.py lines 137-160): guard for
missing/empty, then the five gated stages in source order, each consuming
the previous stage's output. -/
def clean_text_comprehensive (text : Option String) (options : Options) : String :=
  match text with
  | none => ""
  | some s =>
    if s = "" then ""
    else
      let c1 := if options.decode_html.getD true then decode_html_entities (some s) else s
      let c2 := if options.remove_tags.getD false then
          remove_html_tags (some c1) (options.preserve_formatting.getD false) else c1
      let c3 := if options.remove_urls.getD false then remove_urls_func (some c2) else c2
      let c4 := if options.remove_email.getD false then remove_email_func (some c3) else c3
      if options.normalize_whitespace.getD true then normalize_whitespace_func (some c4) else c4

/-- `series.astype(str)`: pandas renders a missing value as the string
`"nan"` (so it contributes length 3 to the mean lengths). -/
def cellStr (x : Option String) : String := x.getD "nan"

/-- `series.astype(str).str.len().mean()` as a rational; the empty column
gives `0` here (pandas gives `NaN`, which the `> 0` guard below treats the
same way as `0`). -/
def avgLen (col : List (Option String)) : ℚ :=
  ((col.map fun x => ((cellStr x).length : ℚ)).sum) / (col.length : ℚ)

/-- Does the text contain a match of `&[a-zA-Z]+;|&#\d+;`? -/
def containsEntityPat : List Char → Bool
  | [] => false
  | '&' :: rest =>
    (let name := rest.takeWhile Char.isAlpha
     if name.isEmpty then
       match rest with
       | '#' :: rest2 =>
         let ds := rest2.takeWhile Char.isDigit
         !ds.isEmpty && ((rest2.drop ds.length).head? == some ';')
       | _ => false
     else (rest.drop name.length).head? == some ';') || containsEntityPat rest
  | _ :: rest => containsEntityPat rest

/-- Does the text contain a match of `<[^>]*>`?  (Equivalently: some `<`
with a later `>`.) -/
def containsTagPat : List Char → Bool
  | [] => false
  | c :: rest => if c = '<' then rest.contains '>' else containsTagPat rest

def countNa (col : List (Option String)) : Nat :=
  col.countP fun x => decide (x = none)

def countEmptyStr (col : List (Option String)) : Nat :=
  col.countP fun x => decide (x = some "")

def countWith (p : List Char → Bool) (col : List (Option String)) : Nat :=
  col.countP fun x => p (cellStr x).toList

/-- The dictionary produced by `get_cleaning_stats`. -/
structure CleaningStats where
  total_rows : Nat
  empty_original : Nat
  empty_cleaned : Nat
  avg_length_original : ℚ
  avg_length_cleaned : ℚ
  html_entities_found : Nat
  html_tags_found : Nat
  size_reduction : ℚ
deriving DecidableEq

/-- `get_cleaning_stats` (src/app.py lines 162-176). -/
def get_cleaning_stats (original cleaned : List (Option String)) : CleaningStats :=
  let a := avgLen original
  let b := avgLen cleaned
  { total_rows := original.length
    empty_original := countNa original + countEmptyStr original
    empty_cleaned := countNa cleaned + countEmptyStr cleaned
    avg_length_original := a
    avg_length_cleaned := b
    html_entities_found := countWith containsEntityPat original
    html_tags_found := countWith containsTagPat original
    size_reduction := if 0 < a then (a - b) / a * 100 else 0 }

/-- A pandas DataFrame restricted to what the cleaning loop uses: an
ordered sequence of named columns of cells. -/
abbrev Column := List (Option String)
abbrev Table := List (String × Column)

/-- `df[name]`: the values of the named column (the loop only reads
columns known to exist). -/
def getColumn (df : Table) (name : String) : Column :=
  ((df.find? fun p => p.1 == name).map Prod.snd).getD []

/-- `df[name] = col`: pandas assignment replaces the values of an existing
column in place, and appends a new column at the end otherwise. -/
def setColumn (df : Table) (name : String) (col : Column) : Table :=
  if name ∈ df.map Prod.fst then
    df.map fun p => if p.1 = name then (name, col) else p
  else df ++ [(name, col)]

/-- `original_series.apply(lambda x: clean_text_comprehensive(x, options))`. -/
def cleanColumn (col : Column) (options : Options) : Column :=
  col.map fun x => some (clean_text_comprehensive x options)

/-- One iteration of the cleaning loop (src/app.py lines 267-287) for a
selected column: `df[column + add_suffix] = df[column].apply(clean...)`. -/
def processColumn (df : Table) (column suffix : String) (options : Options) : Table :=
  setColumn df (column ++ suffix) (cleanColumn (getColumn df column) options)

/-! Spec-shaped definitions, used to compare the source pipeline against
the spec's description of it (stage gating and ordering, and the
"rewrite whitelisted tags, then strip the rest" decomposition). -/

/-- A pipeline stage as the spec describes it: run `f` exactly when the
stage's flag is true, otherwise pass the input through. -/
def stageGate (flag : Bool) (f : String → String) (s : String) : String :=
  if flag then f s else s

def decodeStage (s : String) : String := decode_html_entities (some s)

def tagStage (pf : Bool) (s : String) : String := remove_html_tags (some s) pf

def urlStage (s : String) : String := remove_urls_func (some s)

def emailStage (s : String) : String := remove_email_func (some s)

def wsStage (s : String) : String := normalize_whitespace_func (some s)

/-- The spec's "generic tag-removal pass" on its own. -/
def stripAllTagsStr (s : String) : String := String.mk (removeTagsList s.toList)

/-- The spec's "rewrite the whitelisted paired inline tags to markers"
pass on its own. -/
def formatRewriteStr (s : String) : String := String.mk (formatRewrite s.toList)

/-! Invariants of normalized text, used to prove the idempotence of the
whitespace normalizer. -/

/-- The first character, if any, is not whitespace. -/
def headNotWS : List Char → Prop
  | [] => True
  | c :: _ => isWS c = false

/-- Every whitespace character is the ASCII space. -/
def allSp (l : List Char) : Prop := ∀ c ∈ l, isWS c = true → c = ' '

/-- No two adjacent characters are both whitespace. -/
def NoAdj (l : List Char) : Prop :=
  l.Chain' fun a b => ¬(isWS a = true ∧ isWS b = true)

/-! ## Theorems -/

/-- Claim C4: every transform of the pipeline (entity decode, tag strip,
URL removal, email removal, whitespace normalize) and the composed clean
operation map a missing (`none`) or empty-string input to the empty
string; being total Lean functions, none of them can raise. -/
theorem C4_empty_inputs :
    (∀ o : Options,
      clean_text_comprehensive none o = "" ∧ clean_text_comprehensive (some "") o = "") ∧
    decode_html_entities none = "" ∧ decode_html_entities (some "") = "" ∧
    (∀ pf : Bool, remove_html_tags none pf = "" ∧ remove_html_tags (some "") pf = "") ∧
    remove_urls_func none = "" ∧ remove_urls_func (some "") = "" ∧
    remove_email_func none = "" ∧ remove_email_func (some "") = "" ∧
    normalize_whitespace_func none = "" ∧ normalize_whitespace_func (some "") = "" :=
  ⟨fun _ => ⟨rfl, rfl⟩, rfl, rfl, fun _ => ⟨rfl, rfl⟩, rfl, rfl, rfl, rfl, rfl, rfl⟩

/-- Claim C10: with an empty options dictionary, entity decoding and
whitespace normalization default on and every other stage defaults off,
so cleaning is exactly normalize-after-decode. -/
theorem C10_default_flags :
    ∀ t : Option String,
      clean_text_comprehensive t emptyOptions =
        normalize_whitespace_func (some (decode_html_entities t)) := by
  intro t
  cases t with
  | none => rfl
  | some s =>
    by_cases h : s = ""
    · subst h; rfl
    · simp [clean_text_comprehensive, decode_html_entities, emptyOptions, h]

/-- Claim C2: the cleaning pipeline is the composition, in the fixed
order entity-decode, tag-strip, URL-removal, email-removal,
whitespace-normalize, of stages each run exactly when its flag (with its
dictionary default) is true, every stage consuming the previous stage's
output. -/
theorem C2_stage_order :
    ∀ (t : Option String) (o : Options),
      clean_text_comprehensive t o =
        match t with
        | none => ""
        | some s =>
          if s = "" then ""
          else
            stageGate (o.normalize_whitespace.getD true) wsStage
              (stageGate (o.remove_email.getD false) emailStage
                (stageGate (o.remove_urls.getD false) urlStage
                  (stageGate (o.remove_tags.getD false)
                      (tagStage (o.preserve_formatting.getD false))
                    (stageGate (o.decode_html.getD true) decodeStage s)))) := by
  intro t o
  cases t with
  | none => rfl
  | some s => rfl

/-- Claim C6: with `preserve_formatting` on, the tag stripper first
rewrites the whitelisted `<b>`/`<strong>` and `<i>`/`<em>` spans to
markdown markers and only then strips all remaining tags; in particular
`<p>Hello <b>World</b></p>` becomes `Hello **World**`. -/
theorem C6_preserve_formatting :
    (∀ s : String, remove_html_tags (some s) true = stripAllTagsStr (formatRewriteStr s)) ∧
    remove_html_tags (some "<p>Hello <b>World</b></p>") true = "Hello **World**" := by
  constructor
  · intro s
    by_cases h : s = ""
    · subst h; decide
    · simp [remove_html_tags, stripAllTagsStr, formatRewriteStr, h]
  · decide

/-- Claim C1 fails on the code: for the 3-row `body` column of the claim,
cleaning with {decode_entities, strip_tags, normalize_whitespace} keeps
the literal `&` produced by decoding `&amp;` (the first cleaned cell is
`&Hi there`, not `Hi there`), and `html_tags_found` scans the original
values, which contain no literal `<...>` tag, so it is 0, not 1. -/
theorem C1_counterexample :
    cleanColumn [some "&amp;Hi &lt;b&gt;there&lt;/b&gt;", some "no markup", some ""]
        (⟨some true, some true, some false, some true, some false, some false⟩ : Options) ≠
      [some "Hi there", some "no markup", some ""] ∧
    (get_cleaning_stats
        [some "&amp;Hi &lt;b&gt;there&lt;/b&gt;", some "no markup", some ""]
        (cleanColumn [some "&amp;Hi &lt;b&gt;there&lt;/b&gt;", some "no markup", some ""]
          (⟨some true, some true, some false, some true, some false, some false⟩ :
            Options))).html_tags_found ≠ 1 := by
  constructor
  · decide
  · decide

/-- Claim C1, amended: the same end-to-end run produces the cleaned column
`["&Hi there", "no markup", ""]` with statistics `empty_original = 1`,
`empty_cleaned = 1`, `html_entities_found = 1`, `html_tags_found = 0`. -/
theorem C1_end_to_end_amended :
    cleanColumn [some "&amp;Hi &lt;b&gt;there&lt;/b&gt;", some "no markup", some ""]
        (⟨some true, some true, some false, some true, some false, some false⟩ : Options) =
      [some "&Hi there", some "no markup", some ""] ∧
    (get_cleaning_stats
        [some "&amp;Hi &lt;b&gt;there&lt;/b&gt;", some "no markup", some ""]
        (cleanColumn [some "&amp;Hi &lt;b&gt;there&lt;/b&gt;", some "no markup", some ""]
          (⟨some true, some true, some false, some true, some false, some false⟩ :
            Options))).empty_original = 1 ∧
    (get_cleaning_stats
        [some "&amp;Hi &lt;b&gt;there&lt;/b&gt;", some "no markup", some ""]
        (cleanColumn [some "&amp;Hi &lt;b&gt;there&lt;/b&gt;", some "no markup", some ""]
          (⟨some true, some true, some false, some true, some false, some false⟩ :
            Options))).empty_cleaned = 1 ∧
    (get_cleaning_stats
        [some "&amp;Hi &lt;b&gt;there&lt;/b&gt;", some "no markup", some ""]
        (cleanColumn [some "&amp;Hi &lt;b&gt;there&lt;/b&gt;", some "no markup", some ""]
          (⟨some true, some true, some false, some true, some false, some false⟩ :
            Options))).html_entities_found = 1 ∧
    (get_cleaning_stats
        [some "&amp;Hi &lt;b&gt;there&lt;/b&gt;", some "no markup", some ""]
        (cleanColumn [some "&amp;Hi &lt;b&gt;there&lt;/b&gt;", some "no markup", some ""]
          (⟨some true, some true, some false, some true, some false, some false⟩ :
            Options))).html_tags_found = 0 := by
  refine ⟨by decide, by decide, by decide, by decide, by decide⟩

/-- Claim C7: for equal-length original and cleaned columns the computed
`size_reduction` is `(mean_before - mean_after) / mean_before * 100`, is
0 whenever the mean length before is 0, and can be negative (cleaning may
increase the mean length). -/
theorem C7_size_reduction :
    ∀ original cleaned : List (Option String), original.length = cleaned.length →
      ((get_cleaning_stats original cleaned).size_reduction =
        if 0 < avgLen original then
          (avgLen original - avgLen cleaned) / avgLen original * 100 else 0) ∧
      (avgLen original = 0 → (get_cleaning_stats original cleaned).size_reduction = 0) ∧
      (get_cleaning_stats [some "a"] [some "ab"]).size_reduction < 0 := by
  intro original cleaned _
  refine ⟨rfl, fun h => ?_, ?_⟩
  · simp [get_cleaning_stats, h]
  · have h1 : "a".length = 1 := rfl
    have h2 : "ab".length = 2 := rfl
    simp [get_cleaning_stats, avgLen, cellStr, h1, h2]
    norm_num

/-- Witness for C7 at the concrete pair `["a"]`, `["ab"]`. -/
theorem C7_size_reduction_witness :
    (([some "a"] : List (Option String)).length = ([some "ab"] : List (Option String)).length) ∧
    (((get_cleaning_stats [some "a"] [some "ab"]).size_reduction =
        if 0 < avgLen [some "a"] then
          (avgLen [some "a"] - avgLen [some "ab"]) / avgLen [some "a"] * 100 else 0) ∧
      (avgLen [some "a"] = 0 → (get_cleaning_stats [some "a"] [some "ab"]).size_reduction = 0) ∧
      (get_cleaning_stats [some "a"] [some "ab"]).size_reduction < 0) :=
  ⟨by decide, C7_size_reduction [some "a"] [some "ab"] (by decide)⟩

/-- Claim C8: processing a selected column under a non-colliding derived
name appends exactly one new column and leaves the table's pre-existing
columns structurally unchanged. -/
theorem C8_frame :
    ∀ (df : Table) (column suffix : String) (options : Options),
      column ∈ df.map Prod.fst → (column ++ suffix) ∉ df.map Prod.fst →
      processColumn df column suffix options =
        df ++ [(column ++ suffix, cleanColumn (getColumn df column) options)] := by
  intro df column suffix options _ hno
  simp [processColumn, setColumn, hno]

/-- Witness for C8 on a concrete two-column table. -/
theorem C8_frame_witness :
    ("body" ∈ ([("body", [some "a  b"]), ("id", [some "1"])] : Table).map Prod.fst) ∧
    (("body" ++ "_cleaned") ∉
      ([("body", [some "a  b"]), ("id", [some "1"])] : Table).map Prod.fst) ∧
    processColumn [("body", [some "a  b"]), ("id", [some "1"])] "body" "_cleaned" emptyOptions =
      [("body", [some "a  b"]), ("id", [some "1"])] ++
        [("body" ++ "_cleaned",
          cleanColumn (getColumn [("body", [some "a  b"]), ("id", [some "1"])] "body")
            emptyOptions)] :=
  ⟨by decide, by decide,
    C8_frame [("body", [some "a  b"]), ("id", [some "1"])] "body" "_cleaned" emptyOptions
      (by decide) (by decide)⟩

/-- Claim C3 fails on the code: when the derived name collides with an
existing column (here, empty suffix), the run does not raise any
`NameCollisionError` — the pandas assignment simply replaces the existing
column with the cleaned values, as this concrete run shows. -/
theorem C3_counterexample :
    processColumn [("body", [some "<b>hi</b>"])] "body" ""
        (⟨none, some true, none, none, none, none⟩ : Options) =
      [("body", [some "hi"])] ∧
    ([("body", [some "hi"])] : Table) ≠ [("body", [some "<b>hi</b>"])] := by
  constructor
  · decide
  · decide

/-- Claim C3, amended: when the derived name collides with an existing
column the run does not fail; the assignment overwrites that column's
values with the cleaned values (so with an empty suffix the original
column is replaced), leaving all other columns unchanged. -/
theorem C3_overwrite_amended :
    ∀ (df : Table) (column suffix : String) (options : Options),
      (column ++ suffix) ∈ df.map Prod.fst →
      processColumn df column suffix options =
        df.map fun p =>
          if p.1 = column ++ suffix then
            (column ++ suffix, cleanColumn (getColumn df column) options)
          else p := by
  intro df column suffix options h
  simp [processColumn, setColumn, h]

/-- Witness for the amended C3 on a concrete colliding run. -/
theorem C3_overwrite_amended_witness :
    (("body" ++ "") ∈ ([("body", [some "<b>hi</b>"])] : Table).map Prod.fst) ∧
    processColumn [("body", [some "<b>hi</b>"])] "body" ""
        (⟨none, some true, none, none, none, none⟩ : Options) =
      ([("body", [some "<b>hi</b>"])] : Table).map fun p =>
        if p.1 = "body" ++ "" then
          ("body" ++ "",
            cleanColumn (getColumn [("body", [some "<b>hi</b>"])] "body")
              (⟨none, some true, none, none, none, none⟩ : Options))
        else p :=
  ⟨by decide,
    C3_overwrite_amended [("body", [some "<b>hi</b>"])] "body" ""
      (⟨none, some true, none, none, none, none⟩ : Options) (by decide)⟩

/-- Claim C9: when the cleaned column is obtained by cleaning the original
column cell-wise, `empty_cleaned` is at least `empty_original`: every
missing or empty original cell cleans to the empty string. -/
theorem C9_empty_monotone :
    ∀ (original : List (Option String)) (options : Options),
      (get_cleaning_stats original (cleanColumn original options)).empty_original ≤
        (get_cleaning_stats original (cleanColumn original options)).empty_cleaned := by
  intro original options
  simp only [get_cleaning_stats, countNa, countEmptyStr, cleanColumn]
  induction original with
  | nil => simp
  | cons x l ih =>
    simp only [List.map_cons, List.countP_cons]
    have hx : ((if decide (x = none) = true then 1 else 0) : Nat) +
        (if decide (x = some "") = true then 1 else 0) ≤
        (if decide ((some (clean_text_comprehensive x options) : Option String) = none) = true
          then 1 else 0) +
        (if decide ((some (clean_text_comprehensive x options) : Option String) = some "") = true
          then 1 else 0) := by
      rcases x with _ | s
      · simp [clean_text_comprehensive]
      · by_cases hs : s = ""
        · subst hs
          simp [clean_text_comprehensive]
        · simp [hs]
    omega

/-! Lemmas toward the idempotence of the whitespace normalizer (claim C5):
the output of collapse-then-strip has only single ASCII spaces, none
adjacent and none at either end, and such text is a fixed point of both
passes. -/

theorem headNotWS_collapseAux_true (l : List Char) : headNotWS (collapseAux true l) := by
  induction l with
  | nil => trivial
  | cons c cs ih =>
    cases hw : isWS c with
    | false => simp [collapseAux, hw, headNotWS]
    | true => simpa [collapseAux, hw] using ih

theorem allSp_collapseAux (b : Bool) (l : List Char) : allSp (collapseAux b l) := by
  induction l generalizing b with
  | nil => intro c hc; cases hc
  | cons c cs ih =>
    cases hw : isWS c with
    | false =>
      simp only [collapseAux, hw, Bool.false_eq_true, if_false]
      intro d hd hwsd
      rcases List.mem_cons.mp hd with rfl | hd'
      · rw [hw] at hwsd; cases hwsd
      · exact ih false d hd' hwsd
    | true =>
      cases b with
      | true => simpa [collapseAux, hw] using ih true
      | false =>
        simp only [collapseAux, hw, if_true]
        intro d hd _
        rcases List.mem_cons.mp hd with rfl | hd'
        · rfl
        · exact ih true d hd' (by assumption)

theorem noAdj_collapseAux (b : Bool) (l : List Char) : NoAdj (collapseAux b l) := by
  induction l generalizing b with
  | nil => exact List.chain'_nil
  | cons c cs ih =>
    cases hw : isWS c with
    | false =>
      simp only [collapseAux, hw, Bool.false_eq_true, if_false]
      refine List.chain'_cons'.mpr ⟨?_, ih false⟩
      intro y _ hy
      rw [hw] at hy
      exact absurd hy.1 (by simp)
    | true =>
      cases b with
      | true => simpa [collapseAux, hw] using ih true
      | false =>
        simp only [collapseAux, hw, if_true]
        refine List.chain'_cons'.mpr ⟨?_, ih true⟩
        intro y hy hcon
        have hh := headNotWS_collapseAux_true cs
        revert hy hh
        cases collapseAux true cs with
        | nil => intro hy _; cases hy
        | cons z zs =>
          intro hy hh
          have hyz : z = y := by simpa using hy
          rw [← hyz] at hcon
          rw [show headNotWS (z :: zs) = (isWS z = false) from rfl] at hh
          rw [hh] at hcon
          exact absurd hcon.2 (by simp)

theorem collapse_fix (l : List Char) (hsp : allSp l) (hadj : NoAdj l) :
    collapseAux false l = l ∧ (headNotWS l → collapseAux true l = l) := by
  induction l with
  | nil => exact ⟨rfl, fun _ => rfl⟩
  | cons c cs ih =>
    have hsp' : allSp cs := fun d hd => hsp d (List.mem_cons_of_mem _ hd)
    have hadj' : NoAdj cs := List.Chain'.tail hadj
    obtain ⟨ih1, ih2⟩ := ih hsp' hadj'
    cases hw : isWS c with
    | false =>
      constructor
      · simp [collapseAux, hw, ih1]
      · intro _; simp [collapseAux, hw, ih1]
    | true =>
      have hc : c = ' ' := hsp c (List.mem_cons_self c cs) hw
      have hhead : headNotWS cs := by
        cases cs with
        | nil => trivial
        | cons d ds =>
          have hcd := (List.chain'_cons'.mp hadj).1 d rfl
          rw [show headNotWS (d :: ds) = (isWS d = false) from rfl]
          cases hd : isWS d with
          | false => rfl
          | true => exact absurd ⟨hw, hd⟩ hcd
      constructor
      · rw [hc] at hw ⊢
        simp [collapseAux, hw, ih2 hhead]
      · intro hhd
        rw [show headNotWS (c :: cs) = (isWS c = false) from rfl] at hhd
        rw [hw] at hhd
        cases hhd

theorem headNotWS_dropWhile (l : List Char) : headNotWS (l.dropWhile isWS) := by
  induction l with
  | nil => trivial
  | cons c cs ih =>
    cases hw : isWS c with
    | false => simp [List.dropWhile_cons, hw, headNotWS]
    | true => simpa [List.dropWhile_cons, hw] using ih

theorem dropWhile_of_headNotWS {l : List Char} (h : headNotWS l) : l.dropWhile isWS = l := by
  cases l with
  | nil => rfl
  | cons c cs =>
    rw [show headNotWS (c :: cs) = (isWS c = false) from rfl] at h
    simp [List.dropWhile_cons, h]

theorem allSp_dropWhile {l : List Char} (h : allSp l) : allSp (l.dropWhile isWS) :=
  fun c hc => h c ((List.dropWhile_sublist isWS).mem hc)

theorem allSp_reverse {l : List Char} (h : allSp l) : allSp l.reverse :=
  fun c hc => h c (List.mem_reverse.mp hc)

theorem noAdj_dropWhile {l : List Char} (h : NoAdj l) : NoAdj (l.dropWhile isWS) := by
  induction l with
  | nil => exact h
  | cons c cs ih =>
    cases hw : isWS c with
    | false => simpa [List.dropWhile_cons, hw] using h
    | true =>
      simp only [List.dropWhile_cons, hw, if_true]
      exact ih (List.Chain'.tail h)

theorem noAdj_reverse {l : List Char} (h : NoAdj l) : NoAdj l.reverse := by
  unfold NoAdj at h ⊢
  rw [List.chain'_reverse]
  exact List.Chain'.imp (fun a b hab hc => hab ⟨hc.2, hc.1⟩) h

theorem headNotWS_pyStrip (l : List Char) : headNotWS (pyStrip l) := by
  unfold pyStrip
  obtain ⟨t, ht⟩ := List.dropWhile_suffix (l := (l.dropWhile isWS).reverse) isWS
  have hzh : headNotWS (l.dropWhile isWS) := headNotWS_dropWhile l
  have hz2 : l.dropWhile isWS =
      ((l.dropWhile isWS).reverse.dropWhile isWS).reverse ++ t.reverse := by
    conv_lhs => rw [← List.reverse_reverse (l.dropWhile isWS), ← ht]
    rw [List.reverse_append]
  cases hcase : ((l.dropWhile isWS).reverse.dropWhile isWS).reverse with
  | nil => trivial
  | cons c rest =>
    rw [hcase] at hz2
    rw [hz2] at hzh
    exact hzh

theorem headNotWS_reverse_pyStrip (l : List Char) : headNotWS (pyStrip l).reverse := by
  unfold pyStrip
  rw [List.reverse_reverse]
  exact headNotWS_dropWhile _

theorem pyStrip_id {m : List Char} (hh : headNotWS m) (hhr : headNotWS m.reverse) :
    pyStrip m = m := by
  unfold pyStrip
  rw [dropWhile_of_headNotWS hh, dropWhile_of_headNotWS hhr, List.reverse_reverse]

theorem normalize_core (l : List Char) :
    pyStrip (collapseAux false (pyStrip (collapseAux false l))) =
      pyStrip (collapseAux false l) := by
  have hsp : allSp (pyStrip (collapseAux false l)) := by
    unfold pyStrip
    exact allSp_reverse (allSp_dropWhile (allSp_reverse
      (allSp_dropWhile (allSp_collapseAux false l))))
  have hadj : NoAdj (pyStrip (collapseAux false l)) := by
    unfold pyStrip
    exact noAdj_reverse (noAdj_dropWhile (noAdj_reverse
      (noAdj_dropWhile (noAdj_collapseAux false l))))
  have hh : headNotWS (pyStrip (collapseAux false l)) := headNotWS_pyStrip _
  have hhr : headNotWS (pyStrip (collapseAux false l)).reverse := headNotWS_reverse_pyStrip _
  rw [(collapse_fix _ hsp hadj).1, pyStrip_id hh hhr]

/-- Claim C5: the whitespace normalizer (collapse every whitespace run to
a single ASCII space, then trim both ends) is idempotent. -/
theorem C5_normalize_idempotent :
    ∀ t : Option String,
      normalize_whitespace_func (some (normalize_whitespace_func t)) =
        normalize_whitespace_func t := by
  intro t
  cases t with
  | none => rfl
  | some s =>
    by_cases hs : s = ""
    · subst hs; rfl
    · have hrhs : normalize_whitespace_func (some s) =
          String.mk (pyStrip (collapseAux false s.toList)) := by
        simp [normalize_whitespace_func, hs]
      rw [hrhs]
      by_cases hu : String.mk (pyStrip (collapseAux false s.toList)) = ""
      · rw [hu]
        rfl
      · simp only [normalize_whitespace_func, hu, if_false]
        rw [show (String.mk (pyStrip (collapseAux false s.toList))).toList =
            pyStrip (collapseAux false s.toList) from rfl]
        rw [normalize_core s.toList]

end Cleancsv
